import Mathlib

/-!
Shallow embedding of the svupa table-synchronisation core
(src/utils/table.ts, src/utils/tableRow.ts, src/utils/tableStore.ts).

Rows are duck-typed in the source; their field values are modelled by
`JSVal` (numbers and `undefined`, which is what the claims exercise).
JavaScript `Map` objects are modelled by association lists with the exact
`Map` semantics: `set` replaces in place when the key is present and
appends otherwise, `delete` removes the entry, iteration order is
insertion order.  `structuredClone` is modelled as a value copy, which in
a purely functional embedding is the identity.  Thrown JavaScript errors
are modelled with `Except JsErr`.
-/

namespace Svupa

/-- A JavaScript field value as far as the claims need it: a number or
`undefined` (a missing property access yields `undefined`). -/
inductive JSVal where
  | num (n : Int)
  | undef
deriving DecidableEq

/-- The dynamic field set of a row (`data` in `TableRow`). -/
abbrev RowData := List (String × JSVal)

/-- JavaScript property access `d[k]`: the first binding of `k`, else
`undefined`. -/
def jsGet : RowData → String → JSVal
  | [], _ => .undef
  | p :: rest, k => if p.1 == k then p.2 else jsGet rest k

/-- JavaScript strict equality `===` on the modelled values: numbers are
compared exactly, `undefined === undefined` is true, and a number is
never strictly equal to `undefined`. -/
def jsStrictEq : JSVal → JSVal → Bool
  | .num a, .num b => a == b
  | .undef, .undef => true
  | _, _ => false

/-- JavaScript `>`: numeric comparison; any comparison involving
`undefined` is false (NaN semantics). -/
def jsGt : JSVal → JSVal → Bool
  | .num a, .num b => decide (b < a)
  | _, _ => false

/-- JavaScript `<`. -/
def jsLt : JSVal → JSVal → Bool
  | .num a, .num b => decide (a < b)
  | _, _ => false

/-- JavaScript `>=`. -/
def jsGte : JSVal → JSVal → Bool
  | .num a, .num b => decide (b ≤ a)
  | _, _ => false

/-- JavaScript `<=`. -/
def jsLte : JSVal → JSVal → Bool
  | .num a, .num b => decide (a ≤ b)
  | _, _ => false

/-- A single filter condition, the record shape used by
`TableRow.checkCondition` (`condition.type`, `condition.column`,
`condition.value`; the class itself lives in condition.js, outside src/,
but only this shape is consumed by the code under src/). -/
structure Condition where
  column : String
  type : String
  value : JSVal
deriving DecidableEq

/-- `TableRow.checkCondition` (tableRow.ts, lines 21 to 38): a switch on
the operator string; the default branch returns false. -/
def TableRow.checkCondition (data : RowData) (c : Condition) : Bool :=
  if c.type == "eq" then jsStrictEq (jsGet data c.column) c.value
  else if c.type == "neq" then !(jsStrictEq (jsGet data c.column) c.value)
  else if c.type == "gt" then jsGt (jsGet data c.column) c.value
  else if c.type == "lt" then jsLt (jsGet data c.column) c.value
  else if c.type == "gte" then jsGte (jsGet data c.column) c.value
  else if c.type == "lte" then jsLte (jsGet data c.column) c.value
  else false

/-- `TableRow.checkConditions` (tableRow.ts, lines 12 to 19): iterate the
conditions in order and return false at the first failing one. -/
def TableRow.checkConditions (data : RowData) : List Condition → Bool
  | [] => true
  | c :: rest =>
    if !(TableRow.checkCondition data c) then false
    else TableRow.checkConditions data rest

/-- Thrown JavaScript errors reachable in the modelled code. -/
inductive JsErr where
  /-- `throw new Error(msg)`. -/
  | thrown (msg : String)
  /-- A TypeError from a property access on `undefined`. -/
  | typeError
deriving DecidableEq

/-- JavaScript `Map.get`. -/
def jsMapGet {α : Type} : List (String × α) → String → Option α
  | [], _ => none
  | p :: rest, k => if p.1 == k then some p.2 else jsMapGet rest k

/-- JavaScript `Map.has`. -/
def jsMapHas {α : Type} (m : List (String × α)) (k : String) : Bool :=
  (jsMapGet m k).isSome

/-- JavaScript `Map.set`: replace in place when the key is present
(keeping its position), append otherwise. -/
def jsMapSet {α : Type} : List (String × α) → String → α → List (String × α)
  | [], k, v => [(k, v)]
  | p :: rest, k, v => if p.1 == k then (k, v) :: rest else p :: jsMapSet rest k v

/-- JavaScript `Map.delete`: remove the entry with the key (the first
occurrence; keys are unique in every reachable map). -/
def jsMapDelete {α : Type} : List (String × α) → String → List (String × α)
  | [], _ => []
  | p :: rest, k => if p.1 == k then rest else p :: jsMapDelete rest k

/-- Printing a field value into the identity string (JavaScript string
interpolation of the value). -/
def jsValToKey : JSVal → String
  | .num n => toString n
  | .undef => "undefined"

/-- Modelled from the spec: primaryKeys.js is not under src/.  Section 4.1
describes `generateID(row, orderedKeyFields)` as a pure function of the
ordered primary-key field values, and section 9 records that the source
uses a naive delimiter-join of those values.  Faithful to that, the
identity is the delimiter-join of the key fields looked up in the row
data. -/
def generateRowID (keys : List String) (d : RowData) : String :=
  String.intercalate "," (keys.map (fun k => jsValToKey (jsGet d k)))

/-- `TableRow` (tableRow.ts): the row data together with the identity the
constructor derives from it. -/
structure TableRow where
  data : RowData
  id : String
deriving DecidableEq

/-- `new TableRow(data, keys)` (tableRow.ts, lines 7 to 10). -/
def TableRow.make (keys : List String) (d : RowData) : TableRow :=
  ⟨d, generateRowID keys d⟩

/-- `BackupRow` (table.ts, lines 336 to 339): a retained snapshot with
its reference count.  `subscribers` is an `Int` because the source uses a
JavaScript number with `--`. -/
structure BackupRow where
  row : TableRow
  subscribers : Int
deriving DecidableEq

/-- The `data` map of `PessimisticBackup`. -/
abbrev BackupMap := List (String × BackupRow)

/-- `PessimisticBackup.backup` (table.ts, lines 350 to 357): increment
the refcount when an entry exists, otherwise store a deep copy of the row
with refcount 1.  `structuredClone` is a value copy here. -/
def PessimisticBackup.backup (m : BackupMap) (row : TableRow) : BackupMap :=
  if jsMapHas m row.id then
    match jsMapGet m row.id with
    | some e => jsMapSet m row.id { e with subscribers := e.subscribers + 1 }
    | none => m
  else
    jsMapSet m row.id { row := row, subscribers := 1 }

/-- `PessimisticBackup.release` (table.ts, lines 359 to 369): throw when
the identity is absent; otherwise decrement the refcount, remove the
entry when it reaches zero, and return the stored snapshot in both
cases. -/
def PessimisticBackup.release (m : BackupMap) (row : TableRow) :
    Except JsErr (BackupMap × TableRow) :=
  match jsMapGet m row.id with
  | none => .error (.thrown "Row not found in backup")
  | some e =>
    let e' := { e with subscribers := e.subscribers - 1 }
    if e'.subscribers == 0 then
      .ok (jsMapDelete m row.id, e'.row)
    else
      .ok (jsMapSet m row.id e', e'.row)

/-- `PessimisticBackup.has` (table.ts, lines 371 to 373). -/
def PessimisticBackup.has (m : BackupMap) (id : String) : Bool :=
  jsMapHas m id

/-- `PessimisticBackup.get` (table.ts, lines 375 to 377): note that it
returns the whole `BackupRow` entry, not the snapshot inside it. -/
def PessimisticBackup.get (m : BackupMap) (id : String) : Option BackupRow :=
  jsMapGet m id

/-- The dynamic argument of `TableStore.upsert`, `TableStore.delete` and
`Table._upsertInternal`: `Partial<T> | BackupRow<T> | TableRow<T>`, plus
`undefined`, which the failure path of `Table.update` can pass when
`PessimisticBackup.get` finds no entry. -/
inductive StoreArg where
  | tableRow (r : TableRow)
  | backupRow (b : BackupRow)
  | partialRow (d : RowData)
  | undef
deriving DecidableEq

/-- `TableStore.__convertRow` (tableStore.ts, lines 19 to 25): a
`TableRow` is returned as is; a `BackupRow` is detected by its truthy
`row` field and unwrapped; plain data is wrapped in a new `TableRow`;
`undefined` raises a TypeError at the `row.row` access.  (The duck-typed
`row.row` check is modelled by the argument constructor, faithful for all
rows whose data has no `row` field.) -/
def TableStore.convertRow (keys : List String) : StoreArg → Except JsErr TableRow
  | .tableRow r => .ok r
  | .backupRow b => .ok b.row
  | .partialRow d => .ok (TableRow.make keys d)
  | .undef => .error .typeError

/-- The ordered identity-to-data map behind `TableStore`. -/
abbrev StoreMap := List (String × RowData)

/-- Modelled from the spec: mapStore.js is not under src/.  Section 4.3
describes the RowCache as an ordered map whose `upsert` appends a new
identity at the end and replaces an existing one in place, and whose
`delete` is a no-op on an absent identity; `jsMapSet` and `jsMapDelete`
implement exactly that.  `TableStore.upsert` (tableStore.ts, lines 27 to
30) converts its argument and stores the data under the identity. -/
def TableStore.upsert (keys : List String) (store : StoreMap) (a : StoreArg) :
    Except JsErr StoreMap := do
  let tableRow ← TableStore.convertRow keys a
  pure (jsMapSet store tableRow.id tableRow.data)

/-- `TableStore.delete` (tableStore.ts, lines 32 to 35). -/
def TableStore.delete (keys : List String) (store : StoreMap) (a : StoreArg) :
    Except JsErr StoreMap := do
  let tableRow ← TableStore.convertRow keys a
  pure (jsMapDelete store tableRow.id)

/-- The mutable fields of a `Table` the claims are about (table.ts,
lines 12 to 46). -/
structure TableState where
  name : String
  primaryKeys : List String
  optimisticUpdates : Bool
  conditions : List Condition
  prefilter : Option (String × String)
  store : StoreMap
  backup : BackupMap
deriving DecidableEq

/-- The conversion at the head of `Table._upsertInternal`:
`row instanceof TableRow ? row : new TableRow(row, this.primaryKeys)`.
Wrapping a `BackupRow` object builds a `TableRow` over data that lacks
the primary-key fields (each lookup yields `undefined`); wrapping
`undefined` raises a TypeError in `generateRowID`. -/
def Table.argAsTableRow (keys : List String) : StoreArg → Except JsErr TableRow
  | .tableRow r => .ok r
  | .backupRow _ => .ok (TableRow.make keys [])
  | .partialRow d => .ok (TableRow.make keys d)
  | .undef => .error .typeError

/-- `Table._upsertInternal` (table.ts, lines 292 to 299): when a
timestamp is present and the identity is in the pessimistic backup, the
change is ignored; otherwise the store upsert runs on the original
argument. -/
def Table.upsertInternal (st : TableState) (a : StoreArg) (timestamp : Option Nat) :
    Except JsErr TableState := do
  let tableRow ← Table.argAsTableRow st.primaryKeys a
  if timestamp.isSome && PessimisticBackup.has st.backup tableRow.id then
    pure st
  else do
    let store' ← TableStore.upsert st.primaryKeys st.store a
    pure { st with store := store' }

/-- `Table._deleteInternal` (table.ts, lines 301 to 303). -/
def Table.deleteInternal (st : TableState) (a : StoreArg) : Except JsErr TableState := do
  let store' ← TableStore.delete st.primaryKeys st.store a
  pure { st with store := store' }

/-- The result record of `Table.update` (table.ts, lines 258 to 261). -/
structure UpdateResult where
  invokeTime : Nat
  status : Bool
deriving DecidableEq

/-- The local, pre-suspension half of `Table.update` (table.ts, lines 242
to 246): in optimistic mode, back up the argument row and upsert it into
the cache; otherwise do nothing before the remote call. -/
def Table.updatePhaseLocal (st : TableState) (row : TableRow) : Except JsErr TableState :=
  if st.optimisticUpdates then do
    let st1 := { st with backup := PessimisticBackup.backup st.backup row }
    Table.upsertInternal st1 (.tableRow row) none
  else
    pure st

/-- The post-suspension half of `Table.update` (table.ts, lines 251 to
256), given the remote outcome: on optimistic success release the
backup; otherwise fetch the backup entry with `PessimisticBackup.get`
(which may be `undefined`) and upsert it. -/
def Table.updatePhaseSettle (st : TableState) (row : TableRow) (success : Bool) :
    Except JsErr TableState :=
  if st.optimisticUpdates && success then do
    let (backup', _) ← PessimisticBackup.release st.backup row
    pure { st with backup := backup' }
  else
    match PessimisticBackup.get st.backup row.id with
    | some entry => Table.upsertInternal st (.backupRow entry) none
    | none => Table.upsertInternal st .undef none

/-- `Table.update` (table.ts, lines 239 to 262) as one call whose remote
outcome is the `success` argument; returns the invocation timestamp and
the success flag. -/
def Table.update (st : TableState) (row : TableRow) (success : Bool) (invokeTime : Nat) :
    Except JsErr (TableState × UpdateResult) := do
  let st1 ← Table.updatePhaseLocal st row
  let st2 ← Table.updatePhaseSettle st1 row success
  pure (st2, { invokeTime := invokeTime, status := success })

/-- The local, pre-suspension half of `Table.delete` (table.ts, lines 265
to 268): in optimistic mode, back up the argument row and remove it from
the cache; otherwise do nothing before the remote call. -/
def Table.deletePhaseLocal (st : TableState) (row : TableRow) : Except JsErr TableState :=
  if st.optimisticUpdates then do
    let stb := { st with backup := PessimisticBackup.backup st.backup row }
    Table.deleteInternal stb (.tableRow row)
  else
    pure st

/-- The post-suspension half of `Table.delete` (table.ts, lines 274 to
287), given the remote outcome: on optimistic success release the
backup; on optimistic failure fetch the backup entry and upsert it back;
in non-optimistic mode release the backup unconditionally and report the
remote outcome. -/
def Table.deletePhaseSettle (st : TableState) (row : TableRow) (success : Bool) :
    Except JsErr (TableState × Bool) :=
  if st.optimisticUpdates then
    if success then do
      let r ← PessimisticBackup.release st.backup row
      pure ({ st with backup := r.1 }, true)
    else
      match PessimisticBackup.get st.backup row.id with
      | some entry => do
        let st2 ← Table.upsertInternal st (.backupRow entry) none
        pure (st2, false)
      | none => do
        let st2 ← Table.upsertInternal st .undef none
        pure (st2, false)
  else do
    let r ← PessimisticBackup.release st.backup row
    pure ({ st with backup := r.1 }, success)

/-- `Table.delete` (table.ts, lines 264 to 288) with the remote outcome
as the `success` argument. -/
def Table.delete (st : TableState) (row : TableRow) (success : Bool) :
    Except JsErr (TableState × Bool) := do
  let st1 ← Table.deletePhaseLocal st row
  Table.deletePhaseSettle st1 row success

/-- A push payload as consumed by `Table.__parseSubscriptionPayload`
(table.ts, lines 130 to 152): the event type string, the `new` and `old`
rows, and the commit timestamp (always parsed into a `Date`, hence always
present). -/
structure PushPayload where
  eventType : String
  newRow : RowData
  oldRow : RowData
  commitTimestamp : Nat
deriving DecidableEq

/-- `Table.__parseSubscriptionPayload`: the `old` row is used for DELETE
events, the `new` row otherwise; the row is wrapped in a `TableRow`. -/
def Table.parseSubscriptionPayload (st : TableState) (p : PushPayload) :
    TableRow × String × Nat :=
  let row := if p.eventType == "DELETE" then p.oldRow else p.newRow
  (TableRow.make st.primaryKeys row, p.eventType, p.commitTimestamp)

/-- The push-event handler installed by `Table._subscribeToChannel`
(table.ts, lines 77 to 91): an irrelevant row is deleted from the store
whatever the event type; a relevant INSERT or UPDATE is upserted with
the timestamp; a relevant DELETE is deleted. -/
def Table.handlePush (st : TableState) (p : PushPayload) : Except JsErr TableState :=
  let parsed := Table.parseSubscriptionPayload st p
  let tableRow := parsed.1
  let event := parsed.2.1
  let timestamp := parsed.2.2
  if TableRow.checkConditions tableRow.data st.conditions == false then
    Table.deleteInternal st (.tableRow tableRow)
  else if event == "INSERT" || event == "UPDATE" then
    Table.upsertInternal st (.tableRow tableRow) (some timestamp)
  else if event == "DELETE" then
    Table.deleteInternal st (.tableRow tableRow)
  else
    pure st

/-- A supabase query as accumulated by the builder calls in
`Table._addInitialRows` (table.ts, lines 157 to 212): the table name,
whether it is the head-only count query, the single-field equality
prefilter when applied, the range window when applied, and the
ConditionSet translation when applied. -/
structure Query where
  table : String
  countOnly : Bool
  eqFilters : List (String × String)
  range : Option (Nat × Nat)
  conds : List Condition
deriving DecidableEq

/-- Modelled from the spec: condition.js is not under src/.  Section 6
describes the ConditionSet-to-query translator as applying the active
ConditionSet to a query; `Conditions.toQuery` appends the conditions to
the query being built. -/
def Conditions.toQuery (cs : List Condition) (q : Query) : Query :=
  { q with conds := q.conds ++ cs }

/-- The count query built by `Table._addInitialRows` (table.ts, lines 160
to 169): head-only count, scoped by the prefilter when one is set, and by
nothing else. -/
def Table.countQuery (st : TableState) : Query :=
  let q : Query :=
    { table := st.name, countOnly := true, eqFilters := [], range := none, conds := [] }
  match st.prefilter with
  | some pf => { q with eqFilters := [pf] }
  | none => q

/-- One page query built inside the loop of `Table._addInitialRows`
(table.ts, lines 185 to 197): select, prefilter when set, the range
window, then the ConditionSet translation. -/
def Table.fetchQuery (st : TableState) (start stop : Nat) : Query :=
  let q : Query :=
    { table := st.name, countOnly := false, eqFilters := [], range := none, conds := [] }
  let q :=
    match st.prefilter with
    | some pf => { q with eqFilters := [pf] }
    | none => q
  let q := { q with range := some (start, stop) }
  Conditions.toQuery st.conditions q

/-- The `{ count, error }` response of the count query. -/
structure CountResp where
  count : Option Nat
  error : Bool

/-- The `{ data, error }` response of a page fetch. -/
structure FetchResp where
  data : Option (List RowData)
  error : Bool

/-- The external supabase backend as an oracle mapping each issued query
to its response. -/
structure Remote where
  execCount : Query → CountResp
  execFetch : Query → FetchResp

/-- `const pageSize = 1000` (table.ts, line 158). -/
def pageSize : Nat := 1000

/-- Ingesting one fetched page: `for (const row of data ?? [])
this._upsertInternal(row)` (table.ts, lines 206 to 208). -/
def Table.ingestRows (st : TableState) (rows : List RowData) : Except JsErr TableState :=
  rows.foldlM (fun s r => Table.upsertInternal s (.partialRow r) none) st

/-- The pagination loop of `Table._addInitialRows` (table.ts, lines 180
to 211), as a bounded iteration: `fuel` is an upper bound on the number
of `while (start < count)` passes still allowed, so the `while` loop is
run with `fuel := count`, which is sufficient because every pass advances
`start` by `pageSize ≥ 1`.  Returns the final state, the fetch queries
issued in order, and every row passed to the upsert path, in order.  A
fetch error logs and returns, abandoning the remaining windows. -/
def Table.addInitialRowsLoop (remote : Remote) (count : Nat) :
    Nat → TableState → Nat → Except JsErr (TableState × List Query × List RowData)
  | 0, st, _ => .ok (st, [], [])
  | fuel + 1, st, start =>
    if start < count then
      let q := Table.fetchQuery st start (start + pageSize - 1)
      let resp := remote.execFetch q
      if resp.error then
        .ok (st, [q], [])
      else do
        let rows := resp.data.getD []
        let st' ← Table.ingestRows st rows
        let r ← Table.addInitialRowsLoop remote count fuel st' (start + pageSize)
        .ok (r.1, q :: r.2.1, rows ++ r.2.2)
    else
      .ok (st, [], [])

/-- `Table._addInitialRows` (table.ts, lines 157 to 212): issue the count
query; on a count error, or a null or zero count, return without
fetching; otherwise run the pagination loop from offset 0.  Returns the
final state, the count query, the fetch queries and the ingested rows. -/
def Table.addInitialRows (remote : Remote) (st : TableState) :
    Except JsErr (TableState × Query × List Query × List RowData) := do
  let cq := Table.countQuery st
  let resp := remote.execCount cq
  if resp.error || resp.count.getD 0 == 0 then
    .ok (st, cq, [], [])
  else do
    let r ← Table.addInitialRowsLoop remote (resp.count.getD 0) (resp.count.getD 0) st 0
    .ok (r.1, cq, r.2.1, r.2.2)

/-- Two overlapping optimistic `update` calls on the same table: A runs
its local phase, then B runs its local phase, then A settles with its
remote outcome, then B settles with its own.  Both suspension points sit
exactly at the remote `upsert` call in `Table.update`. -/
def Table.overlapUpdates (st : TableState) (rowA rowB : TableRow)
    (successA successB : Bool) : Except JsErr TableState := do
  let st1 ← Table.updatePhaseLocal st rowA
  let st2 ← Table.updatePhaseLocal st1 rowB
  let st3 ← Table.updatePhaseSettle st2 rowA successA
  Table.updatePhaseSettle st3 rowB successB

/-- The states of the `PessimisticBackup.data` map reachable by
sequences of `backup` and `release` calls from the empty map built by the
constructor. -/
inductive BackupReachable : BackupMap → Prop where
  | empty : BackupReachable []
  | backupStep (m : BackupMap) (row : TableRow) :
      BackupReachable m → BackupReachable (PessimisticBackup.backup m row)
  | releaseStep (m m' : BackupMap) (row snap : TableRow) :
      BackupReachable m → PessimisticBackup.release m row = .ok (m', snap) →
      BackupReachable m'

/-- The backup-log invariant: at most one entry per identity (the key
list has no duplicates) and every refcount is at least 1. -/
def BackupWF (m : BackupMap) : Prop :=
  (m.map Prod.fst).Nodup ∧ ∀ p ∈ m, 1 ≤ p.2.subscribers

/-! ## Concrete fixtures used by witnesses and counterexamples -/

/-- A one-column primary key. -/
def exKeys : List String := ["k"]

/-- The cached pre-mutation row data of the fixture table. -/
def exData0 : RowData := [("k", .num 1), ("v", .num 0)]

/-- A row with key 1 and value `n`; its identity is "1". -/
def exRow (n : Int) : TableRow := TableRow.make exKeys [("k", .num 1), ("v", .num n)]

/-- An optimistic table whose cache holds the row with identity "1" in
its pre-mutation state and whose backup log is empty. -/
def exState : TableState :=
  { name := "todos", primaryKeys := exKeys, optimisticUpdates := true,
    conditions := [], prefilter := none,
    store := [("1", exData0)], backup := [] }

/-- The same table with optimistic updates disabled. -/
def exStateNonOpt : TableState := { exState with optimisticUpdates := false }

/-- The same table during an in-flight local mutation: identity "1" is
present in the backup log. -/
def exStateBackup : TableState :=
  { exState with backup := [("1", { row := exRow 0, subscribers := 1 })] }

/-- A sample condition. -/
def exCond : Condition := { column := "v", type := "lt", value := .num 5 }

/-- A table with an active ConditionSet and a prefilter, for the
pagination claims. -/
def exStateCond : TableState :=
  { exState with conditions := [exCond], prefilter := some ("list_id", "7") }

/-- A push DELETE payload for identity "1", carrying a timestamp. -/
def exPayloadDelete : PushPayload :=
  { eventType := "DELETE", newRow := [], oldRow := [("k", .num 1)], commitTimestamp := 7 }

/-- A push UPDATE payload for identity "1" that passes the empty
ConditionSet, carrying a timestamp. -/
def exPayloadUpdate : PushPayload :=
  { eventType := "UPDATE", newRow := [("k", .num 1), ("v", .num 3)],
    oldRow := [], commitTimestamp := 7 }

/-- A push UPDATE payload for identity "1" whose row fails the
ConditionSet of `exStateCond` (its value 9 is not below 5). -/
def exPayloadIrrelevant : PushPayload :=
  { eventType := "UPDATE", newRow := [("k", .num 1), ("v", .num 9)],
    oldRow := [], commitTimestamp := 7 }

/-- One single-row page of fetched data. -/
def exPage (i : Int) : List RowData := [[("k", .num i)]]

/-- A backend with total count 2500 that answers the three windows the
loop issues. -/
def exRemote : Remote :=
  { execCount := fun _ => { count := some 2500, error := false },
    execFetch := fun q =>
      match q.range with
      | some (0, 999) => { data := some (exPage 1), error := false }
      | some (1000, 1999) => { data := some (exPage 2), error := false }
      | some (2000, 2999) => { data := some (exPage 3), error := false }
      | _ => { data := none, error := true } }

/-- A backend whose count query fails. -/
def exRemoteCountErr : Remote :=
  { execCount := fun _ => { count := none, error := true },
    execFetch := fun _ => { data := none, error := true } }

/-- A backend whose first window succeeds and whose second window
fails. -/
def exRemoteFetchErr : Remote :=
  { execCount := fun _ => { count := some 2500, error := false },
    execFetch := fun q =>
      match q.range with
      | some (0, 999) => { data := some (exPage 1), error := false }
      | _ => { data := none, error := true } }

/-! ## Lemmas about the JavaScript `Map` model -/

theorem jsMapGet_set_self {α : Type} (m : List (String × α)) (k : String) (v : α) :
    jsMapGet (jsMapSet m k v) k = some v := by
  induction m with
  | nil => simp [jsMapSet, jsMapGet]
  | cons p rest ih =>
    by_cases hpk : p.1 = k
    · simp [jsMapSet, jsMapGet, hpk]
    · simp [jsMapSet, jsMapGet, hpk, ih]

theorem jsMapGet_set_ne {α : Type} (m : List (String × α)) (k k' : String) (v : α)
    (h : k' ≠ k) : jsMapGet (jsMapSet m k v) k' = jsMapGet m k' := by
  induction m with
  | nil => simp [jsMapSet, jsMapGet, Ne.symm h]
  | cons p rest ih =>
    by_cases hpk : p.1 = k
    · simp [jsMapSet, jsMapGet, hpk, Ne.symm h, h]
    · by_cases hpk' : p.1 = k'
      · simp [jsMapSet, jsMapGet, hpk, hpk', h]
      · simp [jsMapSet, jsMapGet, hpk, hpk', ih]

theorem jsMapGet_eq_none_iff {α : Type} (m : List (String × α)) (k : String) :
    jsMapGet m k = none ↔ k ∉ m.map Prod.fst := by
  induction m with
  | nil => simp [jsMapGet]
  | cons p rest ih =>
    by_cases hpk : p.1 = k
    · simp [jsMapGet, hpk]
    · simp [jsMapGet, hpk, ih, Ne.symm hpk]

theorem jsMapGet_mem {α : Type} (m : List (String × α)) (k : String) (v : α)
    (h : jsMapGet m k = some v) : (k, v) ∈ m := by
  induction m with
  | nil => simp [jsMapGet] at h
  | cons p rest ih =>
    rw [List.mem_cons]
    by_cases hpk : p.1 = k
    · simp [jsMapGet, hpk] at h
      left
      cases p
      simp_all
    · simp [jsMapGet, hpk] at h
      right
      exact ih h

theorem jsMapSet_of_not_has {α : Type} (m : List (String × α)) (k : String) (v : α)
    (h : jsMapHas m k = false) : jsMapSet m k v = m ++ [(k, v)] := by
  induction m with
  | nil => simp [jsMapSet]
  | cons p rest ih =>
    by_cases hpk : p.1 = k
    · simp [jsMapHas, jsMapGet, hpk] at h
    · simp only [jsMapHas, jsMapGet] at h
      rw [if_neg (by simp [hpk])] at h
      simp [jsMapSet, hpk, ih h]

theorem jsMapSet_keys_of_has {α : Type} (m : List (String × α)) (k : String) (v : α)
    (h : jsMapHas m k = true) : (jsMapSet m k v).map Prod.fst = m.map Prod.fst := by
  induction m with
  | nil => simp [jsMapHas, jsMapGet] at h
  | cons p rest ih =>
    by_cases hpk : p.1 = k
    · simp [jsMapSet, hpk]
    · simp only [jsMapHas, jsMapGet] at h
      rw [if_neg (by simp [hpk])] at h
      simp [jsMapSet, hpk, ih h]

theorem jsMapSet_mem {α : Type} (m : List (String × α)) (k : String) (v : α)
    (p : String × α) (h : p ∈ jsMapSet m k v) : p ∈ m ∨ p = (k, v) := by
  induction m with
  | nil => simp [jsMapSet] at h; simp [h]
  | cons q rest ih =>
    by_cases hqk : q.1 = k
    · simp [jsMapSet, hqk] at h
      rcases h with h | h
      · right; exact h
      · left; simp [h]
    · simp [jsMapSet, hqk] at h
      rcases h with h | h
      · left; simp [h]
      · rcases ih h with h2 | h2
        · left; simp [h2]
        · right; exact h2

theorem jsMapDelete_sublist {α : Type} (m : List (String × α)) (k : String) :
    (jsMapDelete m k).Sublist m := by
  induction m with
  | nil => simp [jsMapDelete]
  | cons p rest ih =>
    by_cases hpk : p.1 = k
    · simp only [jsMapDelete, hpk]
      rw [if_pos (by simp)]
      exact List.Sublist.cons p (List.Sublist.refl rest)
    · simp only [jsMapDelete]
      rw [if_neg (by simp [hpk])]
      exact List.Sublist.cons₂ p ih

theorem jsMapGet_delete_self_of_nodup {α : Type} (m : List (String × α)) (k : String)
    (h : (m.map Prod.fst).Nodup) : jsMapGet (jsMapDelete m k) k = none := by
  induction m with
  | nil => simp [jsMapDelete, jsMapGet]
  | cons p rest ih =>
    simp only [List.map_cons, List.nodup_cons] at h
    by_cases hpk : p.1 = k
    · simp only [jsMapDelete]
      rw [if_pos (by simp [hpk])]
      rw [jsMapGet_eq_none_iff]
      rw [← hpk]
      exact h.1
    · simp only [jsMapDelete]
      rw [if_neg (by simp [hpk])]
      simp [jsMapGet, hpk]
      exact ih h.2

theorem jsMapGet_eq_none_of_not_has {α : Type} (m : List (String × α)) (k : String)
    (h : jsMapHas m k = false) : jsMapGet m k = none := by
  cases hg : jsMapGet m k with
  | none => rfl
  | some v => rw [jsMapHas, hg] at h; simp at h

theorem jsMapGet_append_of_not_has {α : Type} (m : List (String × α)) (k : String) (v : α)
    (h : jsMapHas m k = false) : jsMapGet (m ++ [(k, v)]) k = some v := by
  induction m with
  | nil => simp [jsMapGet]
  | cons p rest ih =>
    by_cases hpk : p.1 = k
    · simp [jsMapHas, jsMapGet, hpk] at h
    · simp only [jsMapHas, jsMapGet] at h
      rw [if_neg (by simp [hpk])] at h
      simp [jsMapGet, hpk, ih h]

theorem jsMapDelete_append_of_not_has {α : Type} (m : List (String × α)) (k : String)
    (v : α) (h : jsMapHas m k = false) : jsMapDelete (m ++ [(k, v)]) k = m := by
  induction m with
  | nil => simp [jsMapDelete]
  | cons p rest ih =>
    by_cases hpk : p.1 = k
    · simp [jsMapHas, jsMapGet, hpk] at h
    · simp only [jsMapHas, jsMapGet] at h
      rw [if_neg (by simp [hpk])] at h
      simp [jsMapDelete, hpk, ih h]

/-! ## Computation lemmas for the embedded operations -/

theorem except_bind_ok {ε α β : Type} (a : α) (f : α → Except ε β) :
    (Except.ok a >>= f : Except ε β) = f a := rfl

theorem except_bind_error {ε α β : Type} (e : ε) (f : α → Except ε β) :
    ((Except.error e : Except ε α) >>= f : Except ε β) = .error e := rfl

theorem except_map_ok {ε α β : Type} (f : α → β) (a : α) :
    ((Except.ok a : Except ε α).map f) = .ok (f a) := rfl

theorem backup_of_fresh (m : BackupMap) (row : TableRow)
    (h : jsMapHas m row.id = false) :
    PessimisticBackup.backup m row = m ++ [(row.id, { row := row, subscribers := 1 })] := by
  rw [PessimisticBackup.backup, if_neg (by simp [h]), jsMapSet_of_not_has m row.id _ h]

theorem backup_of_existing (m : BackupMap) (row : TableRow) (e : BackupRow)
    (h : jsMapGet m row.id = some e) :
    PessimisticBackup.backup m row =
      jsMapSet m row.id { e with subscribers := e.subscribers + 1 } := by
  rw [PessimisticBackup.backup, if_pos (by simp [jsMapHas, h]), h]

theorem release_of_existing (m : BackupMap) (row : TableRow) (e : BackupRow)
    (h : jsMapGet m row.id = some e) :
    PessimisticBackup.release m row =
      if e.subscribers - 1 == 0 then .ok (jsMapDelete m row.id, e.row)
      else .ok (jsMapSet m row.id { e with subscribers := e.subscribers - 1 }, e.row) := by
  rw [PessimisticBackup.release, h]

theorem upsertInternal_tableRow_none (st : TableState) (r : TableRow) :
    Table.upsertInternal st (.tableRow r) none =
      .ok { st with store := jsMapSet st.store r.id r.data } := rfl

theorem upsertInternal_backupRow_none (st : TableState) (b : BackupRow) :
    Table.upsertInternal st (.backupRow b) none =
      .ok { st with store := jsMapSet st.store b.row.id b.row.data } := rfl

theorem upsertInternal_partialRow_none (st : TableState) (d : RowData) :
    Table.upsertInternal st (.partialRow d) none =
      .ok { st with
            store := jsMapSet st.store (generateRowID st.primaryKeys d) d } := rfl

theorem upsertInternal_undef_none (st : TableState) :
    Table.upsertInternal st .undef none = .error .typeError := rfl

theorem upsertInternal_suppressed (st : TableState) (r : TableRow) (t : Nat)
    (h : jsMapHas st.backup r.id = true) :
    Table.upsertInternal st (.tableRow r) (some t) = .ok st := by
  have hred : Table.upsertInternal st (.tableRow r) (some t) =
      (if true && PessimisticBackup.has st.backup r.id then
        (pure st : Except JsErr TableState)
      else do
        let store' ← TableStore.upsert st.primaryKeys st.store (.tableRow r)
        pure { st with store := store' }) := rfl
  rw [hred]
  simp [PessimisticBackup.has, h, pure, Except.pure]

theorem deleteInternal_tableRow (st : TableState) (r : TableRow) :
    Table.deleteInternal st (.tableRow r) =
      .ok { st with store := jsMapDelete st.store r.id } := rfl

theorem updatePhaseLocal_opt (st : TableState) (row : TableRow)
    (hopt : st.optimisticUpdates = true) :
    Table.updatePhaseLocal st row =
      .ok { st with backup := PessimisticBackup.backup st.backup row,
                    store := jsMapSet st.store row.id row.data } := by
  rw [Table.updatePhaseLocal, if_pos (by simp [hopt])]
  exact upsertInternal_tableRow_none _ row

theorem updatePhaseLocal_nonopt (st : TableState) (row : TableRow)
    (hopt : st.optimisticUpdates = false) :
    Table.updatePhaseLocal st row = .ok st := by
  rw [Table.updatePhaseLocal, if_neg (by simp [hopt])]
  rfl

theorem updatePhaseSettle_fail_of_get (st : TableState) (row : TableRow) (e : BackupRow)
    (hget : jsMapGet st.backup row.id = some e) :
    Table.updatePhaseSettle st row false =
      .ok { st with store := jsMapSet st.store e.row.id e.row.data } := by
  rw [Table.updatePhaseSettle, if_neg (by simp)]
  rw [PessimisticBackup.get, hget]
  exact upsertInternal_backupRow_none _ e

theorem updatePhaseSettle_fail_of_none (st : TableState) (row : TableRow)
    (hget : jsMapGet st.backup row.id = none) :
    Table.updatePhaseSettle st row false = .error .typeError := by
  rw [Table.updatePhaseSettle, if_neg (by simp)]
  rw [PessimisticBackup.get, hget]
  rfl

theorem updatePhaseSettle_nonopt (st : TableState) (row : TableRow) (s : Bool)
    (hopt : st.optimisticUpdates = false)
    (hget : jsMapGet st.backup row.id = none) :
    Table.updatePhaseSettle st row s = .error .typeError := by
  rw [Table.updatePhaseSettle, if_neg (by simp [hopt])]
  rw [PessimisticBackup.get, hget]
  rfl

theorem updatePhaseSettle_success_opt (st : TableState) (row : TableRow) (e : BackupRow)
    (hopt : st.optimisticUpdates = true)
    (hget : jsMapGet st.backup row.id = some e) :
    Table.updatePhaseSettle st row true =
      (if e.subscribers - 1 == 0 then
        .ok { st with backup := jsMapDelete st.backup row.id }
      else
        .ok { st with
              backup := jsMapSet st.backup row.id
                { e with subscribers := e.subscribers - 1 } }) := by
  rw [Table.updatePhaseSettle, if_pos (by simp [hopt])]
  rw [release_of_existing st.backup row e hget]
  by_cases hz : e.subscribers - 1 == 0
  · rw [if_pos hz, if_pos hz]
    rfl
  · rw [if_neg hz, if_neg hz]
    rfl

theorem deletePhaseLocal_opt (st : TableState) (row : TableRow)
    (hopt : st.optimisticUpdates = true) :
    Table.deletePhaseLocal st row =
      .ok { st with backup := PessimisticBackup.backup st.backup row,
                    store := jsMapDelete st.store row.id } := by
  rw [Table.deletePhaseLocal, if_pos (by simp [hopt])]
  rfl

theorem deletePhaseLocal_nonopt (st : TableState) (row : TableRow)
    (hopt : st.optimisticUpdates = false) :
    Table.deletePhaseLocal st row = .ok st := by
  rw [Table.deletePhaseLocal, if_neg (by simp [hopt])]
  rfl

theorem deletePhaseSettle_fail_of_get (st : TableState) (row : TableRow) (e : BackupRow)
    (hopt : st.optimisticUpdates = true)
    (hget : jsMapGet st.backup row.id = some e) :
    Table.deletePhaseSettle st row false =
      .ok ({ st with store := jsMapSet st.store e.row.id e.row.data }, false) := by
  rw [Table.deletePhaseSettle, if_pos (by simp [hopt]), if_neg (by simp)]
  rw [PessimisticBackup.get, hget]
  rfl

theorem deletePhaseSettle_nonopt (st : TableState) (row : TableRow) (s : Bool)
    (hopt : st.optimisticUpdates = false)
    (hget : jsMapGet st.backup row.id = none) :
    Table.deletePhaseSettle st row s = .error (.thrown "Row not found in backup") := by
  rw [Table.deletePhaseSettle, if_neg (by simp [hopt])]
  rw [PessimisticBackup.release, hget]
  rfl

theorem ingestRows_ok (rows : List RowData) (st : TableState) :
    ∃ store', Table.ingestRows st rows = .ok { st with store := store' } := by
  induction rows generalizing st with
  | nil => exact ⟨st.store, rfl⟩
  | cons r rest ih =>
    have hstep : Table.ingestRows st (r :: rest) =
        Table.ingestRows
          { st with store := jsMapSet st.store (generateRowID st.primaryKeys r) r }
          rest := rfl
    rw [hstep]
    obtain ⟨store', hs⟩ :=
      ih { st with store := jsMapSet st.store (generateRowID st.primaryKeys r) r }
    exact ⟨store', hs⟩

theorem fetchQuery_config (st' st : TableState) (start stop : Nat)
    (hn : st'.name = st.name) (hp : st'.prefilter = st.prefilter)
    (hcs : st'.conditions = st.conditions) :
    Table.fetchQuery st' start stop = Table.fetchQuery st start stop := by
  rw [Table.fetchQuery, Table.fetchQuery, hn, hp, hcs]

theorem addInitialRowsLoop_stop (remote : Remote) (count fuel : Nat) (st : TableState)
    (start : Nat) (h : ¬ start < count) :
    Table.addInitialRowsLoop remote count fuel st start = .ok (st, [], []) := by
  cases fuel with
  | zero => rfl
  | succ f => rw [Table.addInitialRowsLoop, if_neg h]

theorem addInitialRowsLoop_err (remote : Remote) (count fuel : Nat) (st : TableState)
    (start : Nat) (hfuel : fuel ≠ 0) (hlt : start < count)
    (hresp : (remote.execFetch (Table.fetchQuery st start (start + pageSize - 1))).error
      = true) :
    Table.addInitialRowsLoop remote count fuel st start =
      .ok (st, [Table.fetchQuery st start (start + pageSize - 1)], []) := by
  obtain ⟨f, rfl⟩ : ∃ f, fuel = f + 1 := ⟨fuel - 1, by omega⟩
  rw [Table.addInitialRowsLoop, if_pos hlt]
  simp [hresp]

theorem except_bind_pure_eq_map {ε α β : Type} (x : Except ε α) (f : α → β) :
    (x >>= fun a => (pure (f a) : Except ε β)) = x.map f := by
  cases x <;> rfl

theorem addInitialRowsLoop_step (remote : Remote) (count fuel : Nat) (st : TableState)
    (start : Nat) (rows : List RowData) (hlt : start < count)
    (hresp : remote.execFetch (Table.fetchQuery st start (start + pageSize - 1)) =
      { data := some rows, error := false }) :
    ∃ store', Table.ingestRows st rows = .ok { st with store := store' } ∧
      Table.addInitialRowsLoop remote count (fuel + 1) st start =
        (Table.addInitialRowsLoop remote count fuel { st with store := store' }
            (start + pageSize)).map
          (fun r => (r.1, Table.fetchQuery st start (start + pageSize - 1) :: r.2.1,
            rows ++ r.2.2)) := by
  obtain ⟨store', hing⟩ := ingestRows_ok rows st
  refine ⟨store', hing, ?_⟩
  rw [Table.addInitialRowsLoop, if_pos hlt]
  simp only [hresp, hing, Option.getD_some, Bool.false_eq_true, if_false,
    except_bind_ok, Except.map]
  cases hrec : Table.addInitialRowsLoop remote count fuel
      { st with store := store' } (start + pageSize) <;> rfl

theorem addInitialRowsLoop_stepN (remote : Remote) (count fuel : Nat) (st : TableState)
    (start : Nat) (rows : List RowData) (hfuel : fuel ≠ 0) (hlt : start < count)
    (hresp : remote.execFetch (Table.fetchQuery st start (start + pageSize - 1)) =
      { data := some rows, error := false }) :
    ∃ store', Table.ingestRows st rows = .ok { st with store := store' } ∧
      Table.addInitialRowsLoop remote count fuel st start =
        (Table.addInitialRowsLoop remote count (fuel - 1) { st with store := store' }
            (start + pageSize)).map
          (fun r => (r.1, Table.fetchQuery st start (start + pageSize - 1) :: r.2.1,
            rows ++ r.2.2)) := by
  obtain ⟨f, rfl⟩ : ∃ f, fuel = f + 1 := ⟨fuel - 1, by omega⟩
  simpa using addInitialRowsLoop_step remote count f st start rows hlt hresp

theorem except_map_pure {ε α β : Type} (f : α → β) (a : α) :
    ((pure a : Except ε α).map f) = .ok (f a) := rfl

theorem update_as_phases (st : TableState) (row : TableRow) (success : Bool) (t : Nat) :
    Table.update st row success t =
      (Table.updatePhaseLocal st row >>= fun s1 =>
        Table.updatePhaseSettle s1 row success >>= fun s2 =>
        pure (s2, { invokeTime := t, status := success })) := rfl

theorem delete_as_phases (st : TableState) (row : TableRow) (success : Bool) :
    Table.delete st row success =
      (Table.deletePhaseLocal st row >>= fun s1 =>
        Table.deletePhaseSettle s1 row success) := rfl

theorem deletePhaseSettle_success_opt (st : TableState) (row : TableRow) (e : BackupRow)
    (hopt : st.optimisticUpdates = true)
    (hget : jsMapGet st.backup row.id = some e) :
    Table.deletePhaseSettle st row true =
      (if e.subscribers - 1 == 0 then
        .ok ({ st with backup := jsMapDelete st.backup row.id }, true)
      else
        .ok ({ st with
               backup := jsMapSet st.backup row.id
                 { e with subscribers := e.subscribers - 1 } }, true)) := by
  rw [Table.deletePhaseSettle, if_pos (by simp [hopt]), if_pos (by simp)]
  rw [release_of_existing st.backup row e hget]
  by_cases hz : e.subscribers - 1 == 0
  · rw [if_pos hz, if_pos hz]
    rfl
  · rw [if_neg hz, if_neg hz]
    rfl

theorem overlapUpdates_as_phases (st : TableState) (rowA rowB : TableRow)
    (successA successB : Bool) :
    Table.overlapUpdates st rowA rowB successA successB =
      (Table.updatePhaseLocal st rowA >>= fun s1 =>
        Table.updatePhaseLocal s1 rowB >>= fun s2 =>
        Table.updatePhaseSettle s2 rowA successA >>= fun s3 =>
        Table.updatePhaseSettle s3 rowB successB) := rfl

/-! ## Claim theorems -/

/-- Claim C5: calling `release` on an identity that has no active backup
entry raises the error "Row not found in backup" (the
BackupInvariantError), which propagates to the caller rather than
returning silently. -/
theorem release_absent_identity_throws (m : BackupMap) (row : TableRow)
    (h : jsMapHas m row.id = false) :
    PessimisticBackup.release m row = .error (.thrown "Row not found in backup") := by
  rw [PessimisticBackup.release, jsMapGet_eq_none_of_not_has m row.id h]

/-- Witness for C5 at the empty backup map. -/
theorem release_absent_identity_throws_witness :
    PessimisticBackup.release [] (exRow 0) = .error (.thrown "Row not found in backup") :=
  release_absent_identity_throws [] (exRow 0) rfl

/-- Claim C8: `checkConditions` returns true iff every condition holds,
iterating in order and short-circuiting at the first failing comparison
(the cons equation), the empty ConditionSet evaluates to true for every
row, and a single condition with an unrecognized operator evaluates to
false. -/
theorem checkConditions_conjunctive_shortcircuit :
    (∀ (d : RowData) (cs : List Condition),
      TableRow.checkConditions d cs = true ↔
        ∀ c ∈ cs, TableRow.checkCondition d c = true) ∧
    (∀ d : RowData, TableRow.checkConditions d [] = true) ∧
    (∀ (d : RowData) (c : Condition) (cs : List Condition),
      TableRow.checkConditions d (c :: cs) =
        (TableRow.checkCondition d c && TableRow.checkConditions d cs)) ∧
    (∀ (d : RowData) (col t : String) (v : JSVal),
      t ∉ (["eq", "neq", "gt", "lt", "gte", "lte"] : List String) →
      TableRow.checkConditions d [{ column := col, type := t, value := v }] = false) := by
  refine ⟨?_, ?_, ?_, ?_⟩
  · intro d cs
    induction cs with
    | nil => simp [TableRow.checkConditions]
    | cons c rest ih =>
      cases hcc : TableRow.checkCondition d c with
      | false => simp [TableRow.checkConditions, hcc]
      | true => simp [TableRow.checkConditions, hcc, ih]
  · intro d
    rfl
  · intro d c cs
    cases hcc : TableRow.checkCondition d c with
    | false => simp [TableRow.checkConditions, hcc]
    | true => simp [TableRow.checkConditions, hcc]
  · intro d col t v h
    simp only [List.mem_cons, List.not_mem_nil, or_false, not_or] at h
    obtain ⟨h1, h2, h3, h4, h5, h6⟩ := h
    simp [TableRow.checkConditions, TableRow.checkCondition, h1, h2, h3, h4, h5, h6]

/-- Witness for C8: an unrecognized operator evaluates to false. -/
theorem checkConditions_conjunctive_shortcircuit_witness :
    TableRow.checkConditions exData0
      [{ column := "v", type := "like", value := .num 0 }] = false :=
  checkConditions_conjunctive_shortcircuit.2.2.2 exData0 "v" "like" (.num 0) (by decide)

/-- Claim C9: a push event whose reconstructed row fails the active
ConditionSet leads the handler to delete that row's identity from the
cache, whatever the nominal event kind is. -/
theorem push_irrelevant_row_deleted (st : TableState) (p : PushPayload)
    (h : TableRow.checkConditions (Table.parseSubscriptionPayload st p).1.data
      st.conditions = false)
    (hnodup : (st.store.map Prod.fst).Nodup) :
    Table.handlePush st p =
      .ok { st with store :=
            jsMapDelete st.store (Table.parseSubscriptionPayload st p).1.id } ∧
    (Table.handlePush st p).map
        (fun s => jsMapGet s.store (Table.parseSubscriptionPayload st p).1.id) =
      .ok none := by
  have hd : Table.handlePush st p =
      .ok { st with store :=
            jsMapDelete st.store (Table.parseSubscriptionPayload st p).1.id } := by
    rw [Table.handlePush]
    simp only [h, beq_self_eq_true, if_true]
    exact deleteInternal_tableRow st _
  refine ⟨hd, ?_⟩
  rw [hd, except_map_ok]
  rw [jsMapGet_delete_self_of_nodup st.store _ hnodup]

/-- Witness for C9: an UPDATE event whose row fails the condition
`v < 5` removes identity "1" from the cache. -/
theorem push_irrelevant_row_deleted_witness :
    Table.handlePush exStateCond exPayloadIrrelevant =
      .ok { exStateCond with store := [] } ∧
    (Table.handlePush exStateCond exPayloadIrrelevant).map
        (fun s => jsMapGet s.store "1") = .ok none := by
  have h := push_irrelevant_row_deleted exStateCond exPayloadIrrelevant
    (by decide) (by decide)
  exact h

/-- Claim C3 counterexample: a push DELETE event carrying a timestamp,
for an identity present in the backup log and relevant under the active
(empty) ConditionSet, removes the cached row: the cache does change. -/
theorem push_backup_delete_changes_cache :
    jsMapHas exStateBackup.backup
        (Table.parseSubscriptionPayload exStateBackup exPayloadDelete).1.id = true ∧
    (Table.handlePush exStateBackup exPayloadDelete).map (fun s => s.store) = .ok [] ∧
    exStateBackup.store ≠ [] := by
  refine ⟨by decide, by rfl, by decide⟩

/-- Claim C3 (amended): the suppression holds only for relevant
insert/update events: a push event whose row passes the ConditionSet,
whose kind is INSERT or UPDATE, and whose identity is in the backup log
leaves the table state unchanged; delete-kind and irrelevant events are
not suppressed and still delete the row. -/
theorem push_suppression_only_relevant_upsert (st : TableState) (p : PushPayload)
    (hrel : TableRow.checkConditions (Table.parseSubscriptionPayload st p).1.data
      st.conditions = true)
    (hkind : p.eventType = "INSERT" ∨ p.eventType = "UPDATE")
    (hb : jsMapHas st.backup (Table.parseSubscriptionPayload st p).1.id = true) :
    Table.handlePush st p = .ok st := by
  have hev : (Table.parseSubscriptionPayload st p).2.1 = p.eventType := rfl
  simp only [Table.handlePush, hev, hrel]
  rw [if_neg (by decide)]
  rcases hkind with hk | hk <;> rw [hk] <;> rw [if_pos (by decide)] <;>
    exact upsertInternal_suppressed st _ _ hb

/-- Witness for C3 (amended): a relevant UPDATE for an identity in the
backup log leaves the state untouched. -/
theorem push_suppression_only_relevant_upsert_witness :
    Table.handlePush exStateBackup exPayloadUpdate = .ok exStateBackup :=
  push_suppression_only_relevant_upsert exStateBackup exPayloadUpdate
    (by decide) (Or.inr rfl) (by decide)

/-- Claim C10: a `backup` call for an identity that already has an entry
only increments the refcount: the stored snapshot is unchanged, the row
argument of the nested call is discarded, and any number of further
same-identity backups still leaves the first snapshot in place, so every
subsequent `release` returns the snapshot captured by the first `backup`
call. -/
theorem backup_existing_keeps_first_snapshot (m : BackupMap) (row : TableRow)
    (e : BackupRow) (h : jsMapGet m row.id = some e) :
    PessimisticBackup.backup m row =
      jsMapSet m row.id { e with subscribers := e.subscribers + 1 } ∧
    (∀ rows : List TableRow, (∀ r ∈ rows, r.id = row.id) →
      jsMapGet (rows.foldl PessimisticBackup.backup m) row.id =
        some { row := e.row, subscribers := e.subscribers + rows.length }) ∧
    (∀ (m2 : BackupMap) (e2 : BackupRow) (r2 : TableRow), r2.id = row.id →
      jsMapGet m2 row.id = some e2 → e2.row = e.row →
      (PessimisticBackup.release m2 r2).map Prod.snd = .ok e.row) := by
  refine ⟨backup_of_existing m row e h, ?_, ?_⟩
  · have hgen : ∀ (rows : List TableRow) (m' : BackupMap) (e' : BackupRow),
        e'.row = e.row → (∀ r ∈ rows, r.id = row.id) →
        jsMapGet m' row.id = some e' →
        jsMapGet (rows.foldl PessimisticBackup.backup m') row.id =
          some { row := e.row, subscribers := e'.subscribers + rows.length } := by
      intro rows
      induction rows with
      | nil =>
        intro m' e' hrow _ hget
        simp only [List.foldl_nil, List.length_nil, hget]
        rw [← hrow]
        norm_num
      | cons r rest ih =>
        intro m' e' hrow hall hget
        have hr : r.id = row.id := hall r (List.mem_cons_self r rest)
        have hb : PessimisticBackup.backup m' r =
            jsMapSet m' r.id { e' with subscribers := e'.subscribers + 1 } := by
          apply backup_of_existing
          rw [hr]
          exact hget
        have hget2 : jsMapGet (PessimisticBackup.backup m' r) row.id =
            some { e' with subscribers := e'.subscribers + 1 } := by
          rw [hb, hr]
          exact jsMapGet_set_self m' row.id _
        have := ih (PessimisticBackup.backup m' r)
          { e' with subscribers := e'.subscribers + 1 } hrow
          (fun x hx => hall x (List.mem_cons_of_mem r hx)) hget2
        simp only [List.foldl_cons, List.length_cons]
        rw [this]
        congr 1
        simp
        omega
    intro rows hall
    exact hgen rows m e rfl hall h
  · intro m2 e2 r2 hr2 hget2 hrow2
    have hg : jsMapGet m2 r2.id = some e2 := by rw [hr2]; exact hget2
    rw [release_of_existing m2 r2 e2 hg]
    by_cases hz : e2.subscribers - 1 == 0
    · rw [if_pos hz, except_map_ok, hrow2]
    · rw [if_neg hz, except_map_ok, hrow2]

/-- Witness for C10: after a nested backup the stored snapshot is still
the first one and release returns it. -/
theorem backup_existing_keeps_first_snapshot_witness :
    jsMapGet (([exRow 7] : List TableRow).foldl PessimisticBackup.backup
        [("1", { row := exRow 0, subscribers := 1 })]) "1" =
      some { row := exRow 0, subscribers := 2 } ∧
    (PessimisticBackup.release [("1", { row := exRow 0, subscribers := 3 })]
        (exRow 9)).map Prod.snd = .ok (exRow 0) := by
  have h := backup_existing_keeps_first_snapshot
    [("1", { row := exRow 0, subscribers := 1 })] (exRow 5)
    { row := exRow 0, subscribers := 1 } rfl
  constructor
  · have h1 := h.2.1 [exRow 7] (by decide)
    simpa using h1
  · exact h.2.2 [("1", { row := exRow 0, subscribers := 3 })]
      { row := exRow 0, subscribers := 3 } (exRow 9) rfl rfl rfl

/-- Claim C6: every backup-log state reachable by `backup` and `release`
sequences has at most one entry per identity and refcounts of at least 1
(`BackupWF`); `backup` appends a fresh entry holding a copy of the row
with refcount 1 when the identity is absent and increments the refcount
when it is present; `release` decrements the refcount, removes the entry
exactly when the refcount reaches zero, and returns the stored snapshot
in both cases. -/
theorem backup_log_invariants :
    (∀ m, BackupReachable m → BackupWF m) ∧
    (∀ (m : BackupMap) (row : TableRow), jsMapHas m row.id = false →
      PessimisticBackup.backup m row =
        m ++ [(row.id, { row := row, subscribers := 1 })]) ∧
    (∀ (m : BackupMap) (row : TableRow) (e : BackupRow),
      jsMapGet m row.id = some e →
      PessimisticBackup.backup m row =
        jsMapSet m row.id { e with subscribers := e.subscribers + 1 }) ∧
    (∀ (m : BackupMap) (row : TableRow) (e : BackupRow),
      jsMapGet m row.id = some e →
      (e.subscribers - 1 = 0 →
        PessimisticBackup.release m row = .ok (jsMapDelete m row.id, e.row)) ∧
      (e.subscribers - 1 ≠ 0 →
        PessimisticBackup.release m row =
          .ok (jsMapSet m row.id { e with subscribers := e.subscribers - 1 }, e.row))) := by
  refine ⟨?_, backup_of_fresh, backup_of_existing, ?_⟩
  · intro m hr
    induction hr with
    | empty => exact ⟨List.nodup_nil, by intro p hp; cases hp⟩
    | backupStep m row hr ih =>
      cases hh : jsMapHas m row.id with
      | true =>
        obtain ⟨e, hget⟩ : ∃ e, jsMapGet m row.id = some e := by
          cases hg : jsMapGet m row.id with
          | none => rw [jsMapHas, hg] at hh; simp at hh
          | some e => exact ⟨e, rfl⟩
        rw [backup_of_existing m row e hget]
        constructor
        · rw [jsMapSet_keys_of_has m row.id _ hh]
          exact ih.1
        · intro p hp
          rcases jsMapSet_mem m row.id _ p hp with hmem | heq
          · exact ih.2 p hmem
          · have he : 1 ≤ e.subscribers :=
              ih.2 (row.id, e) (jsMapGet_mem m row.id e hget)
            rw [heq]
            simp only []
            omega
      | false =>
        rw [backup_of_fresh m row hh]
        constructor
        · rw [List.map_append, List.nodup_append]
          refine ⟨ih.1, by simp, ?_⟩
          intro a ha hb
          simp at hb
          subst hb
          exact ((jsMapGet_eq_none_iff m row.id).mp
            (jsMapGet_eq_none_of_not_has m row.id hh)) ha
        · intro p hp
          rcases List.mem_append.mp hp with hmem | hnew
          · exact ih.2 p hmem
          · simp at hnew
            simp [hnew]
    | releaseStep m m' row snap hr heq ih =>
      cases hg : jsMapGet m row.id with
      | none =>
        rw [PessimisticBackup.release, hg] at heq
        cases heq
      | some e =>
        rw [release_of_existing m row e hg] at heq
        by_cases hz : e.subscribers - 1 == 0
        · rw [if_pos hz] at heq
          injection heq with heq2
          injection heq2 with hm hsnap
          subst hm
          constructor
          · exact ih.1.sublist (List.Sublist.map Prod.fst (jsMapDelete_sublist m row.id))
          · intro p hp
            exact ih.2 p ((jsMapDelete_sublist m row.id).subset hp)
        · rw [if_neg hz] at heq
          injection heq with heq2
          injection heq2 with hm hsnap
          subst hm
          have hh : jsMapHas m row.id = true := by rw [jsMapHas, hg]; rfl
          constructor
          · rw [jsMapSet_keys_of_has m row.id _ hh]
            exact ih.1
          · intro p hp
            rcases jsMapSet_mem m row.id _ p hp with hmem | hpe
            · exact ih.2 p hmem
            · have he : 1 ≤ e.subscribers :=
                ih.2 (row.id, e) (jsMapGet_mem m row.id e hg)
              have hz' : e.subscribers - 1 ≠ 0 := by
                intro hc
                rw [show (e.subscribers - 1 == 0) = decide (e.subscribers - 1 = 0)
                  from rfl] at hz
                simp [hc] at hz
              rw [hpe]
              simp only []
              omega
  · intro m row e hget
    constructor
    · intro hz
      rw [release_of_existing m row e hget, if_pos (by simp [hz])]
    · intro hz
      rw [release_of_existing m row e hget, if_neg (by simp [hz])]

/-- Witness for C6: a one-step reachable log satisfies the invariant,
and the backup and release equations evaluate at concrete entries. -/
theorem backup_log_invariants_witness :
    BackupWF (PessimisticBackup.backup [] (exRow 0)) ∧
    PessimisticBackup.backup [] (exRow 0) =
      [] ++ [((exRow 0).id, { row := exRow 0, subscribers := 1 })] ∧
    PessimisticBackup.backup [("1", { row := exRow 0, subscribers := 1 })] (exRow 5) =
      jsMapSet [("1", { row := exRow 0, subscribers := 1 })] (exRow 5).id
        { row := exRow 0, subscribers := 1 + 1 } ∧
    PessimisticBackup.release [("1", { row := exRow 0, subscribers := 1 })] (exRow 5) =
      .ok (jsMapDelete [("1", { row := exRow 0, subscribers := 1 })] (exRow 5).id,
        exRow 0) := by
  have h := backup_log_invariants
  refine ⟨h.1 _ (BackupReachable.backupStep [] (exRow 0) BackupReachable.empty),
    h.2.1 [] (exRow 0) rfl,
    h.2.2.1 [("1", { row := exRow 0, subscribers := 1 })] (exRow 5)
      { row := exRow 0, subscribers := 1 } rfl,
    (h.2.2.2 [("1", { row := exRow 0, subscribers := 1 })] (exRow 5)
      { row := exRow 0, subscribers := 1 } rfl).1 (by decide)⟩

/-- Claim C2 counterexample: on remote failure in optimistic mode the
cache is restored but the backup entry is NOT released (it is still in
the log after the call returns), and in non-optimistic mode the call
throws a TypeError instead of returning the timestamp and flag. -/
theorem update_failure_backup_unreleased :
    (Table.update exState (exRow 10) false 0).map
        (fun r => (r.2.status, jsMapHas r.1.backup "1")) = .ok (false, true) ∧
    Table.update exStateNonOpt (exRow 10) true 0 = .error .typeError := by
  exact ⟨rfl, rfl⟩

/-- Claim C2 (amended): on remote success in optimistic mode the backup
for the row's identity is released and the call returns the timestamp
and a true flag; on remote failure in optimistic mode the backup entry
(a copy of the call's own argument row) is fetched and upserted into the
cache, but the backup is not released; when optimistic mode is disabled
no backup was created, so the settle path upserts `undefined` and throws
a TypeError instead of returning. -/
theorem update_settle_paths (st : TableState) (row : TableRow) (t : Nat)
    (hfresh : jsMapHas st.backup row.id = false) :
    (st.optimisticUpdates = true →
      (Table.update st row true t).map
          (fun r => (r.2, jsMapHas r.1.backup row.id, jsMapGet r.1.store row.id)) =
        .ok ({ invokeTime := t, status := true }, false, some row.data)) ∧
    (st.optimisticUpdates = true →
      (Table.update st row false t).map
          (fun r => (r.2, jsMapGet r.1.backup row.id, jsMapGet r.1.store row.id)) =
        .ok ({ invokeTime := t, status := false },
          some { row := row, subscribers := 1 }, some row.data)) ∧
    (st.optimisticUpdates = false →
      ∀ s : Bool, Table.update st row s t = .error .typeError) := by
  have hget : jsMapGet (PessimisticBackup.backup st.backup row) row.id =
      some { row := row, subscribers := 1 } := by
    rw [backup_of_fresh st.backup row hfresh]
    exact jsMapGet_append_of_not_has st.backup row.id _ hfresh
  refine ⟨?_, ?_, ?_⟩
  · intro hopt
    rw [update_as_phases, updatePhaseLocal_opt st row hopt, except_bind_ok]
    have hS := updatePhaseSettle_success_opt
      { st with backup := PessimisticBackup.backup st.backup row,
                store := jsMapSet st.store row.id row.data }
      row { row := row, subscribers := 1 } hopt hget
    rw [if_pos (by rfl)] at hS
    rw [hS, except_bind_ok, except_map_pure]
    have hback2 : jsMapHas
        (jsMapDelete (PessimisticBackup.backup st.backup row) row.id) row.id = false := by
      rw [backup_of_fresh st.backup row hfresh,
        jsMapDelete_append_of_not_has st.backup row.id _ hfresh]
      exact hfresh
    have hstore2 : jsMapGet (jsMapSet st.store row.id row.data) row.id =
        some row.data := jsMapGet_set_self st.store row.id row.data
    simp [hback2, hstore2]
  · intro hopt
    rw [update_as_phases, updatePhaseLocal_opt st row hopt, except_bind_ok]
    have hS := updatePhaseSettle_fail_of_get
      { st with backup := PessimisticBackup.backup st.backup row,
                store := jsMapSet st.store row.id row.data }
      row { row := row, subscribers := 1 } hget
    rw [hS, except_bind_ok, except_map_pure]
    have hstore2 : jsMapGet
        (jsMapSet (jsMapSet st.store row.id row.data) row.id row.data) row.id =
      some row.data := jsMapGet_set_self _ row.id row.data
    simp [hget, hstore2]
  · intro hopt s
    rw [update_as_phases, updatePhaseLocal_nonopt st row hopt, except_bind_ok,
      updatePhaseSettle_nonopt st row s hopt
        (jsMapGet_eq_none_of_not_has st.backup row.id hfresh),
      except_bind_error]

/-- Witness for C2 (amended): an optimistic success at the fixture table
releases the backup and keeps the new row in the cache. -/
theorem update_settle_paths_witness :
    (Table.update exState (exRow 10) true 0).map
        (fun r => (r.2, jsMapHas r.1.backup "1", jsMapGet r.1.store "1")) =
      .ok ({ invokeTime := 0, status := true }, false, some (exRow 10).data) := by
  have h := (update_settle_paths exState (exRow 10) 0 rfl).1 rfl
  exact h

/-- Claim C4 counterexample: in non-optimistic mode a failed remote
delete does not surface as the boolean false: the unconditional
`release` throws the backup invariant error. -/
theorem delete_nonoptimistic_throws :
    exStateNonOpt.optimisticUpdates = false ∧
    Table.delete exStateNonOpt (exRow 10) false =
      .error (.thrown "Row not found in backup") := by
  exact ⟨rfl, rfl⟩

/-- Claim C4 (amended): in optimistic mode a failed remote delete is
surfaced as the boolean false (with the cache restored from the backup
snapshot) and a successful one as true; in non-optimistic mode `delete`
always calls `release` on an identity that was never backed up, so it
throws the backup invariant error whatever the remote outcome. -/
theorem delete_failure_reporting (st : TableState) (row : TableRow)
    (hfresh : jsMapHas st.backup row.id = false) :
    (st.optimisticUpdates = true →
      (Table.delete st row false).map
          (fun r => (r.2, jsMapGet r.1.store row.id)) =
        .ok (false, some row.data)) ∧
    (st.optimisticUpdates = true →
      (Table.delete st row true).map (fun r => r.2) = .ok true) ∧
    (st.optimisticUpdates = false →
      ∀ s : Bool, Table.delete st row s =
        .error (.thrown "Row not found in backup")) := by
  have hget : jsMapGet (PessimisticBackup.backup st.backup row) row.id =
      some { row := row, subscribers := 1 } := by
    rw [backup_of_fresh st.backup row hfresh]
    exact jsMapGet_append_of_not_has st.backup row.id _ hfresh
  refine ⟨?_, ?_, ?_⟩
  · intro hopt
    rw [delete_as_phases, deletePhaseLocal_opt st row hopt, except_bind_ok]
    have hS := deletePhaseSettle_fail_of_get
      { st with backup := PessimisticBackup.backup st.backup row,
                store := jsMapDelete st.store row.id }
      row { row := row, subscribers := 1 } hopt hget
    rw [hS, except_map_ok]
    have hstore2 : jsMapGet
        (jsMapSet (jsMapDelete st.store row.id) row.id row.data) row.id =
      some row.data := jsMapGet_set_self _ row.id row.data
    simp [hstore2]
  · intro hopt
    rw [delete_as_phases, deletePhaseLocal_opt st row hopt, except_bind_ok]
    have hS := deletePhaseSettle_success_opt
      { st with backup := PessimisticBackup.backup st.backup row,
                store := jsMapDelete st.store row.id }
      row { row := row, subscribers := 1 } hopt hget
    rw [if_pos (by rfl)] at hS
    rw [hS, except_map_ok]
  · intro hopt s
    rw [delete_as_phases, deletePhaseLocal_nonopt st row hopt, except_bind_ok,
      deletePhaseSettle_nonopt st row s hopt
        (jsMapGet_eq_none_of_not_has st.backup row.id hfresh)]

/-- Witness for C4 (amended): an optimistic failed delete at the
fixture table returns false and restores the cached row. -/
theorem delete_failure_reporting_witness :
    (Table.delete exState (exRow 10) false).map
        (fun r => (r.2, jsMapGet r.1.store "1")) =
      .ok (false, some (exRow 10).data) := by
  have h := (delete_failure_reporting exState (exRow 10) rfl).1 rfl
  exact h

/-- Claim C1 counterexample: for two overlapping optimistic updates on
identity "1" (cache initially at `exData0`), if both remote calls fail
the cache ends at the FIRST update's argument row, not at the
pre-first-mutation snapshot `exData0`; the same holds when the first
fails and the second succeeds, although the first mutation began when
the cache held `exData0`. -/
theorem overlap_prefirst_snapshot_counterexample :
    (Table.overlapUpdates exState (exRow 10) (exRow 20) false false).map
        (fun s => jsMapGet s.store "1") = .ok (some (exRow 10).data) ∧
    (Table.overlapUpdates exState (exRow 10) (exRow 20) false true).map
        (fun s => jsMapGet s.store "1") = .ok (some (exRow 10).data) ∧
    (exRow 10).data ≠ exData0 ∧
    jsMapGet exState.store "1" = some exData0 := by
  exact ⟨rfl, rfl, by decide, rfl⟩

/-- Claim C1 (amended): two overlapping optimistic updates on the same
identity each invoke `backup` once (the single entry reaches refcount
2), and the retained snapshot is the FIRST call's argument row: whatever
combination of remote outcomes occurs, a failing call's rollback upserts
that first argument row, and failing calls never release the backup. -/
theorem update_overlap_uses_first_argument_snapshot (st : TableState)
    (rowA rowB : TableRow) (hopt : st.optimisticUpdates = true)
    (hid : rowB.id = rowA.id) (hfresh : jsMapHas st.backup rowA.id = false) :
    ((Table.updatePhaseLocal st rowA >>= fun s1 => Table.updatePhaseLocal s1 rowB).map
        (fun s => jsMapGet s.backup rowA.id) =
      .ok (some { row := rowA, subscribers := 2 })) ∧
    ((Table.overlapUpdates st rowA rowB false false).map
        (fun s => (jsMapGet s.store rowA.id, jsMapGet s.backup rowA.id)) =
      .ok (some rowA.data, some { row := rowA, subscribers := 2 })) ∧
    ((Table.overlapUpdates st rowA rowB true false).map
        (fun s => (jsMapGet s.store rowA.id, jsMapGet s.backup rowA.id)) =
      .ok (some rowA.data, some { row := rowA, subscribers := 1 })) ∧
    ((Table.overlapUpdates st rowA rowB false true).map
        (fun s => (jsMapGet s.store rowA.id, jsMapGet s.backup rowA.id)) =
      .ok (some rowA.data, some { row := rowA, subscribers := 1 })) := by
  have hgetA : jsMapGet (PessimisticBackup.backup st.backup rowA) rowA.id =
      some { row := rowA, subscribers := 1 } := by
    rw [backup_of_fresh st.backup rowA hfresh]
    exact jsMapGet_append_of_not_has st.backup rowA.id _ hfresh
  have hB2 : PessimisticBackup.backup (PessimisticBackup.backup st.backup rowA) rowB =
      jsMapSet (PessimisticBackup.backup st.backup rowA) rowB.id
        { row := rowA, subscribers := 2 } := by
    rw [backup_of_existing (PessimisticBackup.backup st.backup rowA) rowB
      { row := rowA, subscribers := 1 } (by rw [hid]; exact hgetA)]
    rfl
  have hgetB2 : jsMapGet
      (PessimisticBackup.backup (PessimisticBackup.backup st.backup rowA) rowB)
      rowA.id = some { row := rowA, subscribers := 2 } := by
    rw [hB2, hid]
    exact jsMapGet_set_self _ rowA.id _
  have hgetB2' : jsMapGet
      (PessimisticBackup.backup (PessimisticBackup.backup st.backup rowA) rowB)
      rowB.id = some { row := rowA, subscribers := 2 } := by
    rw [hid]
    exact hgetB2
  have hL2 : (Table.updatePhaseLocal st rowA >>= fun s1 =>
      Table.updatePhaseLocal s1 rowB) =
      .ok { st with
            backup := PessimisticBackup.backup
              (PessimisticBackup.backup st.backup rowA) rowB,
            store := jsMapSet (jsMapSet st.store rowA.id rowA.data)
              rowB.id rowB.data } := by
    rw [updatePhaseLocal_opt st rowA hopt, except_bind_ok,
      updatePhaseLocal_opt
        { st with backup := PessimisticBackup.backup st.backup rowA,
                  store := jsMapSet st.store rowA.id rowA.data } rowB hopt]
  have hS3ff : Table.updatePhaseSettle
      { st with
        backup := PessimisticBackup.backup
          (PessimisticBackup.backup st.backup rowA) rowB,
        store := jsMapSet (jsMapSet st.store rowA.id rowA.data)
          rowB.id rowB.data } rowA false =
      .ok { st with
            backup := PessimisticBackup.backup
              (PessimisticBackup.backup st.backup rowA) rowB,
            store := jsMapSet (jsMapSet (jsMapSet st.store rowA.id rowA.data)
              rowB.id rowB.data) rowA.id rowA.data } := by
    rw [updatePhaseSettle_fail_of_get _ rowA { row := rowA, subscribers := 2 } hgetB2]
  have hS4ff : Table.updatePhaseSettle
      { st with
        backup := PessimisticBackup.backup
          (PessimisticBackup.backup st.backup rowA) rowB,
        store := jsMapSet (jsMapSet (jsMapSet st.store rowA.id rowA.data)
          rowB.id rowB.data) rowA.id rowA.data } rowB false =
      .ok { st with
            backup := PessimisticBackup.backup
              (PessimisticBackup.backup st.backup rowA) rowB,
            store := jsMapSet (jsMapSet (jsMapSet (jsMapSet st.store rowA.id
              rowA.data) rowB.id rowB.data) rowA.id rowA.data)
              rowA.id rowA.data } := by
    rw [updatePhaseSettle_fail_of_get _ rowB { row := rowA, subscribers := 2 } hgetB2']
  refine ⟨?_, ?_, ?_, ?_⟩
  · rw [hL2, except_map_ok]
    simp [hgetB2]
  · rw [overlapUpdates_as_phases, updatePhaseLocal_opt st rowA hopt, except_bind_ok,
      updatePhaseLocal_opt
        { st with backup := PessimisticBackup.backup st.backup rowA,
                  store := jsMapSet st.store rowA.id rowA.data } rowB hopt,
      except_bind_ok]
    change Except.map _ (Table.updatePhaseSettle
      { st with
        backup := PessimisticBackup.backup
          (PessimisticBackup.backup st.backup rowA) rowB,
        store := jsMapSet (jsMapSet st.store rowA.id rowA.data)
          rowB.id rowB.data } rowA false >>= fun s3 =>
      Table.updatePhaseSettle s3 rowB false) = _
    rw [hS3ff, except_bind_ok, hS4ff, except_map_ok]
    simp [hgetB2, jsMapGet_set_self]
  · have hS3tf : Table.updatePhaseSettle
        { st with
          backup := PessimisticBackup.backup
            (PessimisticBackup.backup st.backup rowA) rowB,
          store := jsMapSet (jsMapSet st.store rowA.id rowA.data)
            rowB.id rowB.data } rowA true =
        .ok { st with
              backup := jsMapSet
                (PessimisticBackup.backup
                  (PessimisticBackup.backup st.backup rowA) rowB)
                rowA.id { row := rowA, subscribers := 1 },
              store := jsMapSet (jsMapSet st.store rowA.id rowA.data)
                rowB.id rowB.data } := by
      rw [updatePhaseSettle_success_opt
        { st with
          backup := PessimisticBackup.backup
            (PessimisticBackup.backup st.backup rowA) rowB,
          store := jsMapSet (jsMapSet st.store rowA.id rowA.data)
            rowB.id rowB.data } rowA { row := rowA, subscribers := 2 }
        hopt hgetB2]
      rw [if_neg (by simp)]
      rfl
    have hgetB3 : jsMapGet (jsMapSet
        (PessimisticBackup.backup (PessimisticBackup.backup st.backup rowA) rowB)
        rowA.id { row := rowA, subscribers := 1 }) rowB.id =
        some { row := rowA, subscribers := 1 } := by
      rw [hid]
      exact jsMapGet_set_self _ rowA.id _
    have hS4tf : Table.updatePhaseSettle
        { st with
          backup := jsMapSet
            (PessimisticBackup.backup
              (PessimisticBackup.backup st.backup rowA) rowB)
            rowA.id { row := rowA, subscribers := 1 },
          store := jsMapSet (jsMapSet st.store rowA.id rowA.data)
            rowB.id rowB.data } rowB false =
        .ok { st with
              backup := jsMapSet
                (PessimisticBackup.backup
                  (PessimisticBackup.backup st.backup rowA) rowB)
                rowA.id { row := rowA, subscribers := 1 },
              store := jsMapSet (jsMapSet (jsMapSet st.store rowA.id rowA.data)
                rowB.id rowB.data) rowA.id rowA.data } := by
      rw [updatePhaseSettle_fail_of_get _ rowB { row := rowA, subscribers := 1 }
        hgetB3]
    rw [overlapUpdates_as_phases, updatePhaseLocal_opt st rowA hopt, except_bind_ok,
      updatePhaseLocal_opt
        { st with backup := PessimisticBackup.backup st.backup rowA,
                  store := jsMapSet st.store rowA.id rowA.data } rowB hopt,
      except_bind_ok]
    change Except.map _ (Table.updatePhaseSettle
      { st with
        backup := PessimisticBackup.backup
          (PessimisticBackup.backup st.backup rowA) rowB,
        store := jsMapSet (jsMapSet st.store rowA.id rowA.data)
          rowB.id rowB.data } rowA true >>= fun s3 =>
      Table.updatePhaseSettle s3 rowB false) = _
    rw [hS3tf, except_bind_ok, hS4tf, except_map_ok]
    simp [jsMapGet_set_self]
  · have hS4ft : Table.updatePhaseSettle
        { st with
          backup := PessimisticBackup.backup
            (PessimisticBackup.backup st.backup rowA) rowB,
          store := jsMapSet (jsMapSet (jsMapSet st.store rowA.id rowA.data)
            rowB.id rowB.data) rowA.id rowA.data } rowB true =
        .ok { st with
              backup := jsMapSet
                (PessimisticBackup.backup
                  (PessimisticBackup.backup st.backup rowA) rowB)
                rowB.id { row := rowA, subscribers := 1 },
              store := jsMapSet (jsMapSet (jsMapSet st.store rowA.id rowA.data)
                rowB.id rowB.data) rowA.id rowA.data } := by
      rw [updatePhaseSettle_success_opt
        { st with
          backup := PessimisticBackup.backup
            (PessimisticBackup.backup st.backup rowA) rowB,
          store := jsMapSet (jsMapSet (jsMapSet st.store rowA.id rowA.data)
            rowB.id rowB.data) rowA.id rowA.data } rowB
        { row := rowA, subscribers := 2 } hopt hgetB2']
      rw [if_neg (by simp)]
      rfl
    rw [overlapUpdates_as_phases, updatePhaseLocal_opt st rowA hopt, except_bind_ok,
      updatePhaseLocal_opt
        { st with backup := PessimisticBackup.backup st.backup rowA,
                  store := jsMapSet st.store rowA.id rowA.data } rowB hopt,
      except_bind_ok]
    change Except.map _ (Table.updatePhaseSettle
      { st with
        backup := PessimisticBackup.backup
          (PessimisticBackup.backup st.backup rowA) rowB,
        store := jsMapSet (jsMapSet st.store rowA.id rowA.data)
          rowB.id rowB.data } rowA false >>= fun s3 =>
      Table.updatePhaseSettle s3 rowB true) = _
    rw [hS3ff, except_bind_ok, hS4ft, except_map_ok]
    simp [hid, jsMapGet_set_self]

/-- Witness for C1 (amended): the both-fail overlap at the fixture table
ends with the cache holding the first argument row and the backup entry
still present with refcount 2. -/
theorem update_overlap_uses_first_argument_snapshot_witness :
    (Table.overlapUpdates exState (exRow 10) (exRow 20) false false).map
        (fun s => (jsMapGet s.store "1", jsMapGet s.backup "1")) =
      .ok (some (exRow 10).data, some { row := exRow 10, subscribers := 2 }) := by
  have h := (update_overlap_uses_first_argument_snapshot exState (exRow 10) (exRow 20)
    rfl rfl rfl).2.1
  exact h

/-- Claim C7 counterexample: the count query carries no ConditionSet
translation even when the table has one, and with total count 2500 the
third issued window is [2000, 2999], not [2000, 2499] (the loop never
clamps `end` to the count). -/
theorem initial_load_scope_window_counterexample :
    exStateCond.conditions ≠ [] ∧
    (Table.countQuery exStateCond).conds = [] ∧
    (Table.addInitialRows exRemote exStateCond).map
        (fun r => r.2.2.1.map Query.range) =
      .ok [some (0, 999), some (1000, 1999), some (2000, 2999)] := by
  exact ⟨by decide, rfl, rfl⟩

/-- Claim C7 (amended): the load first obtains a count scoped by the
prefilter only (the ConditionSet is translated into the page fetches but
not into the count query); with count 2500 and page size 1000 exactly
the windows [0,999], [1000,1999], [2000,2999] are issued, and every row
returned by the fetches is passed to the upsert path exactly once, in
order; a count error aborts before any fetch, and a fetch error abandons
the remaining windows without retrying. -/
theorem initial_load_pagination (remote : Remote) (st : TableState)
    (p1 p2 p3 : List RowData)
    (hc : remote.execCount (Table.countQuery st) =
      { count := some 2500, error := false })
    (h1 : remote.execFetch (Table.fetchQuery st 0 999) =
      { data := some p1, error := false })
    (h2 : remote.execFetch (Table.fetchQuery st 1000 1999) =
      { data := some p2, error := false })
    (h3 : remote.execFetch (Table.fetchQuery st 2000 2999) =
      { data := some p3, error := false }) :
    ((Table.addInitialRows remote st).map (fun r => (r.2.1, r.2.2.1, r.2.2.2)) =
      .ok (Table.countQuery st,
        [Table.fetchQuery st 0 999, Table.fetchQuery st 1000 1999,
          Table.fetchQuery st 2000 2999],
        p1 ++ p2 ++ p3)) ∧
    (Table.countQuery st).conds = [] ∧
    (∀ a b : Nat, (Table.fetchQuery st a b).conds = st.conditions) ∧
    (∀ (remote2 : Remote) (st2 : TableState),
      (remote2.execCount (Table.countQuery st2)).error = true →
      Table.addInitialRows remote2 st2 = .ok (st2, Table.countQuery st2, [], [])) ∧
    (∀ (remote2 : Remote) (st2 : TableState) (q1 : List RowData),
      remote2.execCount (Table.countQuery st2) =
        { count := some 2500, error := false } →
      remote2.execFetch (Table.fetchQuery st2 0 999) =
        { data := some q1, error := false } →
      (remote2.execFetch (Table.fetchQuery st2 1000 1999)).error = true →
      (Table.addInitialRows remote2 st2).map (fun r => (r.2.2.1, r.2.2.2)) =
        .ok ([Table.fetchQuery st2 0 999, Table.fetchQuery st2 1000 1999], q1)) := by
  refine ⟨?_, ?_, ?_, ?_, ?_⟩
  · have hfc : ∀ (s' : StoreMap) (a b : Nat),
        Table.fetchQuery { st with store := s' } a b = Table.fetchQuery st a b :=
      fun s' a b => fetchQuery_config _ st a b rfl rfl rfl
    obtain ⟨s1, hing1, hl1⟩ := addInitialRowsLoop_stepN remote 2500 2500 st 0 p1
      (by norm_num) (by norm_num) h1
    have hfc2 : ∀ (s' : StoreMap) (a b : Nat),
        Table.fetchQuery { { st with store := s1 } with store := s' } a b =
          Table.fetchQuery st a b :=
      fun s' a b => fetchQuery_config _ st a b rfl rfl rfl
    obtain ⟨s2, hing2, hl2⟩ := addInitialRowsLoop_stepN remote 2500 (2500 - 1)
      { st with store := s1 } (0 + pageSize) p2
      (by norm_num) (by norm_num [pageSize]) (by rw [hfc]; exact h2)
    obtain ⟨s3, hing3, hl3⟩ := addInitialRowsLoop_stepN remote 2500 (2500 - 1 - 1)
      { { st with store := s1 } with store := s2 } (0 + pageSize + pageSize) p3
      (by norm_num) (by norm_num [pageSize]) (by rw [hfc2]; exact h3)
    have hstop := addInitialRowsLoop_stop remote 2500 (2500 - 1 - 1 - 1)
      { { { st with store := s1 } with store := s2 } with store := s3 }
      (0 + pageSize + pageSize + pageSize) (by norm_num [pageSize])
    simp only [Table.addInitialRows, hc]
    rw [if_neg (by decide)]
    simp only [Option.getD_some]
    rw [hl1, hl2, hl3, hstop]
    simp only [except_map_ok, except_bind_ok]
    simp [hfc, hfc2]
    norm_num [pageSize]
  · cases hp : st.prefilter <;> simp [Table.countQuery, hp]
  · intro a b
    cases hp : st.prefilter <;> simp [Table.fetchQuery, Conditions.toQuery, hp]
  · intro remote2 st2 herr
    simp only [Table.addInitialRows, Bool.or_eq_true]
    rw [if_pos (by left; exact herr)]
  · intro remote2 st2 q1 hc2 hf1 hf2
    have hfc : ∀ (s' : StoreMap) (a b : Nat),
        Table.fetchQuery { st2 with store := s' } a b = Table.fetchQuery st2 a b :=
      fun s' a b => fetchQuery_config _ st2 a b rfl rfl rfl
    obtain ⟨s1, hing1, hl1⟩ := addInitialRowsLoop_stepN remote2 2500 2500 st2 0 q1
      (by norm_num) (by norm_num) hf1
    have herr2 := addInitialRowsLoop_err remote2 2500 (2500 - 1)
      { st2 with store := s1 } (0 + pageSize)
      (by norm_num) (by norm_num [pageSize]) (by rw [hfc]; exact hf2)
    simp only [Table.addInitialRows, hc2]
    rw [if_neg (by decide)]
    simp only [Option.getD_some]
    rw [hl1, herr2]
    simp only [except_map_ok, except_bind_ok]
    simp [hfc]
    norm_num [pageSize]

/-- Witness for C7 (amended): the fixture backend with count 2500 drives
exactly the three windows and ingests the three pages in order; the
erroring backends abort as stated. -/
theorem initial_load_pagination_witness :
    ((Table.addInitialRows exRemote exStateCond).map
        (fun r => (r.2.1, r.2.2.1, r.2.2.2)) =
      .ok (Table.countQuery exStateCond,
        [Table.fetchQuery exStateCond 0 999, Table.fetchQuery exStateCond 1000 1999,
          Table.fetchQuery exStateCond 2000 2999],
        exPage 1 ++ exPage 2 ++ exPage 3)) ∧
    Table.addInitialRows exRemoteCountErr exStateCond =
      .ok (exStateCond, Table.countQuery exStateCond, [], []) ∧
    (Table.addInitialRows exRemoteFetchErr exStateCond).map
        (fun r => (r.2.2.1, r.2.2.2)) =
      .ok ([Table.fetchQuery exStateCond 0 999,
        Table.fetchQuery exStateCond 1000 1999], exPage 1) := by
  have h := initial_load_pagination exRemote exStateCond
    (exPage 1) (exPage 2) (exPage 3) rfl rfl rfl rfl
  refine ⟨h.1, ?_, ?_⟩
  · exact h.2.2.2.1 exRemoteCountErr exStateCond rfl
  · exact h.2.2.2.2 exRemoteFetchErr exStateCond (exPage 1) rfl rfl rfl

end Svupa
